import Mathlib

/-! go-corelibs/testdb: a shallow embedding of `testdb.go`

The Go code is embedded as pure Lean functions.

* A Go `interface{}` holding a scanned SQL value is a `Value`.
* A Go `error` is an `Option GoError` (`none` is the nil error).
* A Go `map[string]interface{}` is a `GoMap`, a key-unique association list.
* A Go function with several results returns a tuple, so that the value that
  travels next to a non-nil error is visible.
* A nil pointer dereference (a method that needs `t.dbh` called while it is
  nil) is the outer `Option` result `none`.
* `database/sql` and the file system are explicit: a `DB` carries the answers
  of its engine, a `World` carries the files on storage, the driver behind
  `sql.Open` and a log of the effects performed.
-/

namespace TestDB

/-! ## Values, errors, maps -/

/-- Dynamic value stored in a Go `interface{}` after a generic row scan. -/
inductive Value where
  | null : Value
  | int (i : Int) : Value
  | real (bits : Nat) : Value
  | text (s : String) : Value
  | blob (bytes : List Nat) : Value
  deriving DecidableEq, Repr

/-- Go error values: `errors.New`, and `fmt.Errorf("%w: %q", inner, arg)`. -/
inductive GoError where
  | new (msg : String) : GoError
  | wrapf (inner : GoError) (arg : String) : GoError
  deriving DecidableEq, Repr

/-- The chain walk of Go's `errors.Is err target`. -/
def errorsIs : GoError → GoError → Bool
  | GoError.new m, target => decide (GoError.new m = target)
  | GoError.wrapf inner arg, target =>
    decide (GoError.wrapf inner arg = target) || errorsIs inner target

/-- Modelled from the spec: the sentinel `ErrResultColumnNotFound` is declared
outside `testdb.go`; the spec calls it the "requested result column not found"
error kind. Only its identity matters below. -/
def ErrResultColumnNotFound : GoError := GoError.new "result column not found"

/-- The error `sql.DB` methods give once the handle is closed. -/
def errDBClosed : GoError := GoError.new "sql: database is closed"

/-- Go `map[string]interface{}` as an association list holding each key once. -/
abbrev GoMap := List (String × Value)

/-- Go `v, ok := m[k]`: `none` is `ok == false`. -/
def GoMap.get (m : GoMap) (k : String) : Option Value :=
  match m with
  | [] => none
  | (k', v) :: rest => if k' = k then some v else GoMap.get rest k

/-- Go `m[k] = v`: a later assignment to the same key replaces the earlier. -/
def GoMap.set (m : GoMap) (k : String) (v : Value) : GoMap :=
  match m with
  | [] => [(k, v)]
  | (k', v') :: rest => if k' = k then (k, v) :: rest else (k', v') :: GoMap.set rest k v

/-! ## database/sql -/

/-- The rows an engine yields for one query: the column names and, per row,
the values the driver hands to `Scan`. -/
structure ResultSet where
  columns : List String
  rows : List (List Value)
  deriving DecidableEq, Repr

/-- Answers of a database engine to `Query`. -/
abbrev Engine := String → List Value → Except GoError ResultSet

/-- A `*sql.DB` handle. -/
structure DB where
  dsn : String
  closed : Bool
  engine : Engine

/-- Method `(*sql.DB).Query`. -/
def DB.Query (db : DB) (query : String) (argv : List Value) : Except GoError ResultSet :=
  if db.closed then Except.error errDBClosed else db.engine query argv

/-- Method `(*sql.DB).Close`. -/
def DB.Close (db : DB) : DB := { db with closed := true }

/-- Method `(*sql.Rows).Scan` into `*interface{}` destinations: with a wrong
number of destinations nothing is stored, otherwise every column value is. -/
def Scan (dest : List Value) (row : List Value) : List Value :=
  if row.length = dest.length then row else dest

/-! ## The test database -/

/-- The Go struct `testdb`. -/
structure testdb where
  file : String
  dbh : Option DB

/-- The body of the `for rows.Next()` loop of `Select`: one result mapping. -/
def selectRow (columns : List String) (row : List Value) : GoMap :=
  let values := Scan (columns.map (fun _ => Value.null)) row
  (columns.zip values).foldl (fun result nv => GoMap.set result nv.1 nv.2) []

/-- Method `Select`. -/
def testdb.Select (t : testdb) (query : String) (argv : List Value) :
    Option (List GoMap × Option GoError) :=
  match t.dbh with
  | none => none
  | some dbh =>
    match dbh.Query query argv with
    | Except.error err => some ([], some err)
    | Except.ok rows => some (rows.rows.map (selectRow rows.columns), none)

/-- Method `SelectOne`, after the call of `Select`. -/
def selectOneOf (column : String) (results : List GoMap) (err : Option GoError) :
    Value × Option GoError :=
  match err with
  | some e => (Value.null, some e)
  | none =>
    match results with
    | [] => (Value.null, none)
    | result :: _ =>
      match GoMap.get result column with
      | some value => (value, none)
      | none => (Value.null, some (GoError.wrapf ErrResultColumnNotFound column))

/-- Method `SelectOne`. -/
def testdb.SelectOne (t : testdb) (column query : String) (argv : List Value) :
    Option (Value × Option GoError) :=
  (t.Select query argv).map (fun r => selectOneOf column r.1 r.2)

/-- The `for _, result := range results` loop of `SelectList`, started with
the values gathered so far. -/
def selectListLoop (column : String) (values : List Value) :
    List GoMap → List Value × Option GoError
  | [] => (values, none)
  | result :: rest =>
    match GoMap.get result column with
    | none => (values, some (GoError.wrapf ErrResultColumnNotFound column))
    | some value => selectListLoop column (values ++ [value]) rest

/-- Method `SelectList`, after the call of `Select`. -/
def selectListOf (column : String) (results : List GoMap) (err : Option GoError) :
    List Value × Option GoError :=
  match err with
  | some e => ([], some e)
  | none => selectListLoop column [] results

/-- Method `SelectList`. -/
def testdb.SelectList (t : testdb) (column query : String) (argv : List Value) :
    Option (List Value × Option GoError) :=
  (t.Select query argv).map (fun r => selectListOf column r.1 r.2)

/-- The local `query` of method `SqliteDB`. -/
def sqliteDBQuery : String := "SELECT file FROM pragma_database_list WHERE name = \"main\""

/-- Method `SqliteDB`. -/
def testdb.SqliteDB (t : testdb) : Option String :=
  (t.Select sqliteDBQuery []).map (fun r =>
    match r.2 with
    | some _ => ""
    | none =>
      match r.1 with
      | [result] =>
        match GoMap.get result "file" with
        | some (Value.text file) => file
        | _ => ""
      | _ => "")

/-! ## Storage, the driver registry and the effects performed -/

/-- The outward effects of the package, in the order performed. -/
inductive Effect where
  | sqlOpen (driverName dsn : String) : Effect
  | dbClose (dsn : String) : Effect
  | osRemove (name : String) : Effect
  deriving DecidableEq, Repr

/-- What the code runs against: the files on storage, the engine that
`sql.Open driverName dsn` connects to, and the log of effects so far. -/
structure World where
  files : List String
  driver : String → String → Except GoError Engine
  log : List Effect

/-- Go `os.Remove name` on the stored files. -/
def osRemove (w : World) (name : String) : World :=
  { w with files := w.files.filter (fun f => f != name), log := w.log ++ [Effect.osRemove name] }

/-- Go `sql.Open driverName dsn`. -/
def sqlOpen (w : World) (driverName dsn : String) : World × Option DB × Option GoError :=
  let w1 := { w with log := w.log ++ [Effect.sqlOpen driverName dsn] }
  match w.driver driverName dsn with
  | Except.ok engine => (w1, some { dsn := dsn, closed := false, engine := engine }, none)
  | Except.error err => (w1, none, some err)

/-- Search of `strings.Cut` on characters: the text before and after the first
occurrence of `sep`. -/
def cutChars (sep : List Char) : List Char → Option (List Char × List Char)
  | [] => if sep.isEmpty then some ([], []) else none
  | c :: cs =>
    if sep.isPrefixOf (c :: cs) then some ([], (c :: cs).drop sep.length)
    else (cutChars sep cs).map (fun ba => (c :: ba.1, ba.2))

/-- Go `strings.Cut s sep`. -/
def stringsCut (s sep : String) : String × String × Bool :=
  match cutChars sep.data s.data with
  | some ba => (String.mk ba.1, String.mk ba.2, true)
  | none => (s, "", false)

/-- Method `Open`. -/
def testdb.Open (w : World) (t : testdb) : World × testdb × Option GoError :=
  let r := sqlOpen w "sqlite3" t.file
  (r.1, { t with dbh := r.2.1 }, r.2.2)

/-- Method `Close`. -/
def testdb.Close (w : World) (t : testdb) : Option (World × testdb) :=
  match t.dbh with
  | none => some (w, t)
  | some dbh =>
    (t.SqliteDB).map (fun file =>
      let t1 : testdb := { t with dbh := some dbh.Close }
      let w1 : World := { w with log := w.log ++ [Effect.dbClose dbh.dsn] }
      let file := (stringsCut file "?").1
      if file ≠ "" ∧ file ≠ ":memory:" then (osRemove w1 file, t1) else (w1, t1))

/-- Function `NewTestDBWith`. -/
def NewTestDBWith (w : World) (file : String) : World × Option testdb × Option GoError :=
  let file := if file = "" then ":memory:" else file
  let file := file ++ "?cache=shared"
  let t : testdb := { file := file, dbh := none }
  let r := t.Open w
  match r.2.2 with
  | none => (r.1, some r.2.1, none)
  | some err => (r.1, none, some err)

/-- Function `NewTestDB`. -/
def NewTestDB (w : World) : World × Option testdb × Option GoError :=
  NewTestDBWith w ":memory:"

/-! ## The schema catalog -/

/-- The query text `gSelectSqliteSchemaNames`. -/
def gSelectSqliteSchemaNames : String :=
  "SELECT name FROM sqlite_schema WHERE type = ? AND name NOT LIKE \"sqlite_%\" ORDER BY name"

/-- The helper `slices.ToStrings` of go-corelibs, which lies outside this
package: one string per element, a string value as it is and any other value
in its printed form, which the parameter `sprint` stands for. -/
def ToStrings (sprint : Value → String) (values : List Value) : List String :=
  values.map (fun v =>
    match v with
    | Value.text s => s
    | other => sprint other)

/-- Method `Tables`; `sprint` is the printing inside `slices.ToStrings`. -/
def testdb.Tables (sprint : Value → String) (t : testdb) : Option (List String) :=
  (t.SelectList "name" gSelectSqliteSchemaNames [Value.text "table"]).map (fun r =>
    match r.2 with
    | none => ToStrings sprint r.1
    | some _ => [])

/-- Method `Indexes`; `sprint` is the printing inside `slices.ToStrings`. -/
def testdb.Indexes (sprint : Value → String) (t : testdb) : Option (List String) :=
  (t.SelectList "name" gSelectSqliteSchemaNames [Value.text "index"]).map (fun r =>
    match r.2 with
    | none => ToStrings sprint r.1
    | some _ => [])

/-! ## The SQLite engine on the queries of this package -/

/-- One record of the catalog table `sqlite_schema`. -/
structure SchemaEntry where
  type : String
  name : String
  tbl_name : String
  rootpage : Int
  sql : Option String
  deriving DecidableEq, Repr

/-- SQLite's `text LIKE pattern` without an ESCAPE clause: `%` stands for any
run of characters, `_` for any one character, and every other character for
itself, ASCII letters regardless of case. -/
def sqlLike : List Char → List Char → Bool
  | [], text => text.isEmpty
  | p :: ps, text =>
    if p = '%' then text.tails.any (fun rest => sqlLike ps rest)
    else
      match text with
      | [] => false
      | c :: cs => (p = '_' || p.toLower = c.toLower) && sqlLike ps cs

/-- The BINARY collation on text: the comparison of `memcmp`, character by
character. -/
def memcmpLE : List Char → List Char → Bool
  | [], _ => true
  | _ :: _, [] => false
  | a :: as, b :: bs => a.toNat < b.toNat || (a = b && memcmpLE as bs)

/-- SQLite's `ORDER BY name` on a list of names. -/
def orderByName (names : List String) : List String :=
  names.insertionSort (fun a b => memcmpLE a.data b.data = true)

/-- The rows SQLite gives for `gSelectSqliteSchemaNames` bound to `kind`. -/
def selectSchemaNames (schema : List SchemaEntry) (kind : String) : List String :=
  orderByName ((schema.filter (fun e =>
    e.type = kind && !(sqlLike "sqlite_%".data e.name.data))).map (fun e => e.name))

/-- SQLite on a database with the given catalog and main database file, for
the two queries modelled here; every other query is answered with an error. -/
def sqliteEngine (schema : List SchemaEntry) (mainFile : String) : Engine :=
  fun query argv =>
    if query = gSelectSqliteSchemaNames then
      match argv with
      | [Value.text kind] =>
        Except.ok ⟨["name"], (selectSchemaNames schema kind).map (fun n => [Value.text n])⟩
      | _ => Except.error (GoError.new "sql: wrong arguments")
    else if query = sqliteDBQuery then
      Except.ok ⟨["file"], [[Value.text mainFile]]⟩
    else Except.error (GoError.new "query outside the model")

/-- A test database holding an open handle on `sqliteEngine schema mainFile`. -/
def sqliteDB (dsn : String) (schema : List SchemaEntry) (mainFile : String) : testdb :=
  { file := dsn,
    dbh := some { dsn := dsn, closed := false, engine := sqliteEngine schema mainFile } }

/-! ## Sample databases used to instantiate the theorems -/

/-- An engine answering every query with the given result set. -/
def constEngine (rs : ResultSet) : Engine := fun _ _ => Except.ok rs

/-- A test database holding an open handle on `constEngine rs`. -/
def sampleDB (rs : ResultSet) : testdb :=
  { file := ":memory:?cache=shared",
    dbh := some { dsn := ":memory:?cache=shared", closed := false, engine := constEngine rs } }

/-- A world with the given files whose `sqlite3` driver connects every data
source name to SQLite on an empty catalog with main database file `mainFile`,
and which knows no other driver. -/
def sampleWorld (files : List String) (mainFile : String) : World :=
  { files := files,
    driver := fun driverName _ =>
      if driverName = "sqlite3" then Except.ok (sqliteEngine [] mainFile)
      else Except.error (GoError.new "sql: unknown driver"),
    log := [] }

/-! ## Lemmas on maps and on `Select` -/

theorem GoMap.get_set (m : GoMap) (k k' : String) (v : Value) :
    GoMap.get (GoMap.set m k v) k' = if k = k' then some v else GoMap.get m k' := by
  induction m with
  | nil => simp [GoMap.set, GoMap.get]
  | cons e rest ih =>
    obtain ⟨a, b⟩ := e
    by_cases hak : a = k
    · subst hak
      by_cases hk : a = k' <;> simp [GoMap.set, GoMap.get, hk]
    · by_cases hak' : a = k'
      · subst hak'
        have hk : ¬ k = a := fun h => hak h.symm
        simp [GoMap.set, GoMap.get, hak, hk]
      · simp [GoMap.set, GoMap.get, hak, hak', ih]

theorem foldl_set_get_none (ps : List (String × Value)) (m : GoMap) (c : String) :
    GoMap.get (ps.foldl (fun result nv => GoMap.set result nv.1 nv.2) m) c = none ↔
      GoMap.get m c = none ∧ ∀ p ∈ ps, p.1 ≠ c := by
  induction ps generalizing m with
  | nil => simp
  | cons p rest ih =>
    rw [List.foldl_cons, ih, GoMap.get_set]
    by_cases hp : p.1 = c <;> simp [hp]

theorem Scan_length (dest row : List Value) : (Scan dest row).length = dest.length := by
  unfold Scan
  split <;> simp_all

theorem selectRow_get_none (columns : List String) (row : List Value) (c : String) :
    GoMap.get (selectRow columns row) c = none ↔ c ∉ columns := by
  unfold selectRow
  simp only [foldl_set_get_none, GoMap.get, true_and]
  have hlen : (Scan (columns.map (fun _ => Value.null)) row).length = columns.length := by
    rw [Scan_length, List.length_map]
  generalize Scan (columns.map (fun _ => Value.null)) row = values at hlen
  constructor
  · intro h hc
    obtain ⟨i, hi, rfl⟩ := List.getElem_of_mem hc
    have hi' : i < values.length := by omega
    have hmem : (columns[i], values[i]) ∈ columns.zip values := by
      have hz : i < (columns.zip values).length := by simp [List.length_zip, hi, hi']
      have := List.getElem_mem hz
      simpa [List.getElem_zip] using this
    exact h _ hmem rfl
  · intro h p hp heq
    exact h (heq ▸ (List.of_mem_zip hp).1)

theorem Select_ok_iff (t : testdb) (query : String) (argv : List Value) (results : List GoMap) :
    t.Select query argv = some (results, none) ↔
      ∃ dbh rs, t.dbh = some dbh ∧ dbh.Query query argv = Except.ok rs ∧
        results = rs.rows.map (selectRow rs.columns) := by
  unfold testdb.Select
  cases hdb : t.dbh with
  | none => simp
  | some dbh =>
    cases hq : dbh.Query query argv with
    | error e => simp [hq]
    | ok rs =>
      simp only [hq, Option.some.injEq, Prod.mk.injEq, and_true]
      constructor
      · intro h
        exact ⟨dbh, rs, rfl, hq, h.symm⟩
      · rintro ⟨d, r, hd, hr, hres⟩
        cases hd
        rw [hq] at hr
        cases hr
        exact hres.symm

theorem selectListLoop_all (column : String) (results : List GoMap) (acc : List Value)
    (hall : ∀ r ∈ results, (GoMap.get r column).isSome = true) :
    ∃ values, selectListLoop column acc results = (acc ++ values, none) ∧
      results.map (fun r => GoMap.get r column) = values.map some := by
  induction results generalizing acc with
  | nil => exact ⟨[], by simp [selectListLoop]⟩
  | cons r rest ih =>
    have hr := hall r (List.mem_cons_self _ _)
    obtain ⟨v, hv⟩ := Option.isSome_iff_exists.mp hr
    obtain ⟨vs, hvs, hmap⟩ := ih (acc ++ [v]) (fun x hx => hall x (List.mem_cons_of_mem _ hx))
    refine ⟨v :: vs, ?_, ?_⟩
    · simp [selectListLoop, hv, hvs]
    · simp [hv, hmap]

/-! ## SelectOne and SelectList -/

/-- C1: when Select succeeds with at least one row and the first row has the
column, SelectOne returns that row's value for the column and a nil error,
whatever the later rows are. -/
theorem SelectOne_first_row (t : testdb) (column query : String) (argv : List Value)
    (result : GoMap) (rest : List GoMap) (value : Value)
    (hsel : t.Select query argv = some (result :: rest, none))
    (hcol : GoMap.get result column = some value) :
    t.SelectOne column query argv = some (value, none) := by
  simp [testdb.SelectOne, hsel, selectOneOf, hcol]

theorem SelectOne_first_row_witness :
    (sampleDB ⟨["id", "value"], [[Value.int 1, Value.text "yes"], [Value.int 2, Value.null]]⟩).SelectOne
      "value" "SELECT * FROM \"check\"" [] = some (Value.text "yes", none) :=
  SelectOne_first_row _ "value" _ [] [("id", Value.int 1), ("value", Value.text "yes")]
    [[("id", Value.int 2), ("value", Value.null)]] (Value.text "yes") (by decide) (by decide)

/-- C2: when Select succeeds and every row has the column, SelectList returns a
nil error and one value per row, the i-th being the i-th row's value for the
column. -/
theorem SelectList_every_row (t : testdb) (column query : String) (argv : List Value)
    (results : List GoMap)
    (hsel : t.Select query argv = some (results, none))
    (hall : ∀ r ∈ results, (GoMap.get r column).isSome = true) :
    ∃ values, t.SelectList column query argv = some (values, none) ∧
      values.length = results.length ∧
      results.map (fun r => GoMap.get r column) = values.map some := by
  obtain ⟨values, hloop, hmap⟩ := selectListLoop_all column results [] hall
  refine ⟨values, ?_, ?_, hmap⟩
  · simpa [testdb.SelectList, selectListOf, hsel] using hloop
  · have := congrArg List.length hmap
    simpa using this.symm

theorem SelectList_every_row_witness :
    ∃ values,
      (sampleDB ⟨["id", "value"], [[Value.int 1, Value.text "yes"], [Value.int 2, Value.null]]⟩).SelectList
        "value" "SELECT * FROM \"check\"" [] = some (values, none) ∧
      values.length = 2 ∧
      [some (Value.text "yes"), some Value.null] = values.map some :=
  SelectList_every_row _ "value" _ []
    [[("id", Value.int 1), ("value", Value.text "yes")], [("id", Value.int 2), ("value", Value.null)]]
    (by decide) (by decide)

/-- C3: when Select succeeds with at least one row and the column is absent
from every result row, SelectOne returns a nil value and SelectList a nil
list, each with an error for which `errors.Is err ErrResultColumnNotFound`
holds. -/
theorem Select_column_absent (t : testdb) (column query : String) (argv : List Value)
    (result : GoMap) (rest : List GoMap)
    (hsel : t.Select query argv = some (result :: rest, none))
    (habs : ∀ r ∈ result :: rest, GoMap.get r column = none) :
    ∃ e1 e2,
      t.SelectOne column query argv = some (Value.null, some e1) ∧
      errorsIs e1 ErrResultColumnNotFound = true ∧
      t.SelectList column query argv = some ([], some e2) ∧
      errorsIs e2 ErrResultColumnNotFound = true := by
  have h0 : GoMap.get result column = none := habs result (List.mem_cons_self _ _)
  refine ⟨GoError.wrapf ErrResultColumnNotFound column,
    GoError.wrapf ErrResultColumnNotFound column, ?_, ?_, ?_, ?_⟩
  · simp [testdb.SelectOne, hsel, selectOneOf, h0]
  · simp [errorsIs, ErrResultColumnNotFound]
  · simp [testdb.SelectList, selectListOf, hsel, selectListLoop, h0]
  · simp [errorsIs, ErrResultColumnNotFound]

theorem Select_column_absent_witness :
    ∃ e1 e2,
      (sampleDB ⟨["1"], [[Value.int 1]]⟩).SelectOne "nope" "SELECT 1 FROM \"check\"" [] =
        some (Value.null, some e1) ∧
      errorsIs e1 ErrResultColumnNotFound = true ∧
      (sampleDB ⟨["1"], [[Value.int 1]]⟩).SelectList "nope" "SELECT 1 FROM \"check\"" [] =
        some ([], some e2) ∧
      errorsIs e2 ErrResultColumnNotFound = true :=
  Select_column_absent _ "nope" _ [] [("1", Value.int 1)] [] (by decide) (by decide)

theorem selectListLoop_stops (column : String) (before : List GoMap) (offending : GoMap)
    (after : List GoMap) (acc : List Value)
    (hbefore : ∀ r ∈ before, (GoMap.get r column).isSome = true)
    (hoff : GoMap.get offending column = none) :
    ∃ values, selectListLoop column acc (before ++ offending :: after) =
        (acc ++ values, some (GoError.wrapf ErrResultColumnNotFound column)) ∧
      before.map (fun r => GoMap.get r column) = values.map some := by
  induction before generalizing acc with
  | nil => exact ⟨[], by simp [selectListLoop, hoff]⟩
  | cons r rest ih =>
    obtain ⟨v, hv⟩ := Option.isSome_iff_exists.mp (hbefore r (List.mem_cons_self _ _))
    obtain ⟨vs, hvs, hmap⟩ := ih (acc ++ [v]) (fun x hx => hbefore x (List.mem_cons_of_mem _ hx))
    refine ⟨v :: vs, ?_, ?_⟩
    · simp [selectListLoop, hv, hvs]
    · simp [hv, hmap]

/-- C4 as stated fails: on the successful result set whose first two rows hold
the column `value` (1 and 2) and whose third row lacks it, SelectList returns
the column-not-found error next to the list 1, 2, not next to a nil list. -/
theorem SelectList_partial_counterexample :
    ¬ (∀ (column : String) (results : List GoMap),
        (∃ r ∈ results, GoMap.get r column = none) →
        ∃ e, selectListOf column results none = ([], some e) ∧
          errorsIs e ErrResultColumnNotFound = true) := by
  intro h
  obtain ⟨e, he, _⟩ := h "value"
    [[("value", Value.int 1)], [("value", Value.int 2)], [("id", Value.int 3)]]
    ⟨[("id", Value.int 3)], by decide, by decide⟩
  have hev : selectListOf "value"
      [[("value", Value.int 1)], [("value", Value.int 2)], [("id", Value.int 3)]] none =
      ([Value.int 1, Value.int 2], some (GoError.wrapf ErrResultColumnNotFound "value")) := by
    decide
  rw [hev] at he
  have hfst : [Value.int 1, Value.int 2] = ([] : List Value) := congrArg Prod.fst he
  exact absurd hfst (by decide)

theorem SelectList_of_Select_lacks (t : testdb) (column query : String) (argv : List Value)
    (results : List GoMap)
    (hsel : t.Select query argv = some (results, none))
    (hlack : ∃ r ∈ results, GoMap.get r column = none) :
    t.SelectList column query argv =
        some ([], some (GoError.wrapf ErrResultColumnNotFound column)) ∧
      ∀ r ∈ results, GoMap.get r column = none := by
  obtain ⟨dbh, rs, _, _, hres⟩ := (Select_ok_iff t query argv results).mp hsel
  obtain ⟨r, hr, hnone⟩ := hlack
  rw [hres] at hr
  obtain ⟨row, _, rfl⟩ := List.mem_map.mp hr
  have hcol : column ∉ rs.columns := (selectRow_get_none rs.columns row column).mp hnone
  constructor
  · cases hrows : rs.rows with
    | nil => simp [hrows] at hr
    | cons first others =>
      have hfirst : GoMap.get (selectRow rs.columns first) column = none :=
        (selectRow_get_none rs.columns first column).mpr hcol
      simp [testdb.SelectList, selectListOf, hsel, hres, hrows, selectListLoop, hfirst]
  · intro r' hr'
    rw [hres] at hr'
    obtain ⟨row', _, rfl⟩ := List.mem_map.mp hr'
    exact (selectRow_get_none rs.columns row' column).mpr hcol

/-- C4, amended: for every successful result set in which a row lacks the
column, SelectList fails with the column-not-found error at the first such
row and returns next to it the values of the rows before that row, in row
order, so the list is nil only when the first row lacks the column; that is
the case for every result set Select builds, whose rows all have the same
keys: there SelectList returns the error with a nil list. -/
theorem SelectList_row_lacks_column (column : String) (before : List GoMap)
    (offending : GoMap) (after : List GoMap)
    (hbefore : ∀ r ∈ before, (GoMap.get r column).isSome = true)
    (hoff : GoMap.get offending column = none) :
    (∃ values, selectListOf column (before ++ offending :: after) none =
        (values, some (GoError.wrapf ErrResultColumnNotFound column)) ∧
      errorsIs (GoError.wrapf ErrResultColumnNotFound column) ErrResultColumnNotFound = true ∧
      values.length = before.length ∧
      before.map (fun r => GoMap.get r column) = values.map some) ∧
    ∀ (t : testdb) (query : String) (argv : List Value) (results : List GoMap),
      t.Select query argv = some (results, none) →
      (∃ r ∈ results, GoMap.get r column = none) →
      t.SelectList column query argv =
          some ([], some (GoError.wrapf ErrResultColumnNotFound column)) ∧
        ∀ r ∈ results, GoMap.get r column = none := by
  constructor
  · obtain ⟨values, hloop, hmap⟩ := selectListLoop_stops column before offending after [] hbefore hoff
    refine ⟨values, ?_, ?_, ?_, hmap⟩
    · simpa [selectListOf] using hloop
    · simp [errorsIs, ErrResultColumnNotFound]
    · have := congrArg List.length hmap
      simpa using this.symm
  · intro t query argv results hsel hlack
    exact SelectList_of_Select_lacks t column query argv results hsel hlack

theorem SelectList_row_lacks_column_witness :
    (∃ values, selectListOf "value"
        ([[("value", Value.int 1)], [("value", Value.int 2)]] ++
          [("id", Value.int 3)] :: [[("value", Value.int 4)]]) none =
        (values, some (GoError.wrapf ErrResultColumnNotFound "value")) ∧
      errorsIs (GoError.wrapf ErrResultColumnNotFound "value") ErrResultColumnNotFound = true ∧
      values.length = [[("value", Value.int 1)], [("value", Value.int 2)]].length ∧
      [[("value", Value.int 1)], [("value", Value.int 2)]].map (fun r => GoMap.get r "value") =
        values.map some) ∧
    ∀ (t : testdb) (query : String) (argv : List Value) (results : List GoMap),
      t.Select query argv = some (results, none) →
      (∃ r ∈ results, GoMap.get r "value" = none) →
      t.SelectList "value" query argv =
          some ([], some (GoError.wrapf ErrResultColumnNotFound "value")) ∧
        ∀ r ∈ results, GoMap.get r "value" = none :=
  SelectList_row_lacks_column "value" [[("value", Value.int 1)], [("value", Value.int 2)]]
    [("id", Value.int 3)] [[("value", Value.int 4)]] (by decide) (by decide)

/-- C5: when Select succeeds with zero rows, SelectOne returns a nil value and
a nil error, and SelectList returns an empty list and a nil error. -/
theorem Select_empty_result (t : testdb) (column query : String) (argv : List Value)
    (hsel : t.Select query argv = some ([], none)) :
    t.SelectOne column query argv = some (Value.null, none) ∧
      t.SelectList column query argv = some ([], none) := by
  simp [testdb.SelectOne, testdb.SelectList, hsel, selectOneOf, selectListOf, selectListLoop]

theorem Select_empty_result_witness :
    (sampleDB ⟨["name"], []⟩).SelectOne "nope" "SELECT name FROM sqlite_schema" [] =
        some (Value.null, none) ∧
      (sampleDB ⟨["name"], []⟩).SelectList "nope" "SELECT name FROM sqlite_schema" [] =
        some ([], none) :=
  Select_empty_result _ "nope" _ [] (by decide)

/-! ## Select -/

theorem foldl_set_get_of_forall_ne (ps : List (String × Value)) (m : GoMap) (c : String)
    (hne : ∀ p ∈ ps, p.1 ≠ c) :
    GoMap.get (ps.foldl (fun result nv => GoMap.set result nv.1 nv.2) m) c = GoMap.get m c := by
  induction ps generalizing m with
  | nil => rfl
  | cons p rest ih =>
    have hp : p.1 ≠ c := hne p (List.mem_cons_self _ _)
    rw [List.foldl_cons, ih _ (fun q hq => hne q (List.mem_cons_of_mem _ hq)), GoMap.get_set]
    simp [hp]

theorem foldl_set_get_last (ps : List (String × Value)) (m : GoMap) (c : String) (v : Value)
    (j : Nat) (hj : ps[j]? = some (c, v))
    (hlast : ∀ j' p, j < j' → ps[j']? = some p → p.1 ≠ c) :
    GoMap.get (ps.foldl (fun result nv => GoMap.set result nv.1 nv.2) m) c = some v := by
  induction ps generalizing m j with
  | nil => simp at hj
  | cons p rest ih =>
    rw [List.foldl_cons]
    cases j with
    | zero =>
      simp only [List.getElem?_cons_zero, Option.some.injEq] at hj
      subst hj
      rw [foldl_set_get_of_forall_ne, GoMap.get_set]
      · simp
      · intro q hq
        obtain ⟨i, hi⟩ := List.getElem?_of_mem hq
        exact hlast (i + 1) q (Nat.succ_pos i) (by simpa using hi)
    | succ n =>
      apply ih _ n (by simpa using hj)
      intro j' q hlt hq
      exact hlast (j' + 1) q (Nat.succ_lt_succ hlt) (by simpa using hq)

theorem selectRow_get_last (columns : List String) (row : List Value) (c : String) (v : Value)
    (j : Nat) (hlen : row.length = columns.length)
    (hc : columns[j]? = some c) (hv : row[j]? = some v)
    (hlast : ∀ j', j < j' → columns[j']? ≠ some c) :
    GoMap.get (selectRow columns row) c = some v := by
  have hscan : Scan (columns.map (fun _ => Value.null)) row = row := by
    simp [Scan, hlen]
  unfold selectRow
  simp only [hscan]
  apply foldl_set_get_last _ _ c v j
  · simp [List.getElem?_zip_eq_some, hc, hv]
  · intro j' p hlt hp heq
    obtain ⟨a, b⟩ := p
    rw [List.getElem?_zip_eq_some] at hp
    exact hlast j' hlt (by rw [hp.1]; exact congrArg some heq)

/-- C6 as stated fails: for a result set with the column names `a, a` and the
row `1, 2`, the mapping Select returns holds 2 under `a`, not the first
scanned value 1. -/
theorem Select_repeated_column_counterexample :
    ¬ (∀ (t : testdb) (query : String) (argv : List Value) (dbh : DB)
        (columns : List String) (rows : List (List Value)),
        t.dbh = some dbh → dbh.Query query argv = Except.ok ⟨columns, rows⟩ →
        (∀ r ∈ rows, r.length = columns.length) →
        ∃ results, t.Select query argv = some (results, none) ∧
          results.length = rows.length ∧
          ∀ (i j : Nat) (m : GoMap) (row : List Value) (c : String) (v : Value),
            results[i]? = some m → rows[i]? = some row →
            columns[j]? = some c → row[j]? = some v → GoMap.get m c = some v) := by
  intro h
  obtain ⟨results, hsel, _, hget⟩ :=
    h (sampleDB ⟨["a", "a"], [[Value.int 1, Value.int 2]]⟩) "SELECT 1 AS a, 2 AS a" []
      { dsn := ":memory:?cache=shared", closed := false,
        engine := constEngine ⟨["a", "a"], [[Value.int 1, Value.int 2]]⟩ }
      ["a", "a"] [[Value.int 1, Value.int 2]] rfl rfl (by decide)
  have hres : results = [[("a", Value.int 2)]] := by
    have hev : (sampleDB ⟨["a", "a"], [[Value.int 1, Value.int 2]]⟩).Select
        "SELECT 1 AS a, 2 AS a" [] = some ([[("a", Value.int 2)]], none) := by decide
    rw [hev] at hsel
    simp only [Option.some.injEq, Prod.mk.injEq, and_true] at hsel
    exact hsel.symm
  subst hres
  have h1 := hget 0 0 [("a", Value.int 2)] [Value.int 1, Value.int 2] "a" (Value.int 1)
    rfl rfl rfl rfl
  revert h1
  decide

/-- C6, amended: when the engine executes the query with column names
c_1..c_k and n rows of k scanned values, Select returns a nil error and n
mappings in row order; the i-th mapping has every column name as a key and
holds, under c_j, the j-th scanned value of the i-th row whenever no later
column repeats the name c_j (of columns sharing a name the last one is kept). -/
theorem Select_rows (t : testdb) (query : String) (argv : List Value) (dbh : DB)
    (columns : List String) (rows : List (List Value))
    (hdb : t.dbh = some dbh) (hq : dbh.Query query argv = Except.ok ⟨columns, rows⟩)
    (hlen : ∀ r ∈ rows, r.length = columns.length) :
    ∃ results, t.Select query argv = some (results, none) ∧
      results.length = rows.length ∧
      ∀ (i : Nat) (m : GoMap) (row : List Value),
        results[i]? = some m → rows[i]? = some row →
        (∀ c ∈ columns, (GoMap.get m c).isSome = true) ∧
        ∀ (j : Nat) (c : String) (v : Value),
          columns[j]? = some c → row[j]? = some v →
          (∀ j', j < j' → columns[j']? ≠ some c) → GoMap.get m c = some v := by
  refine ⟨rows.map (selectRow columns), ?_, by simp, ?_⟩
  · simp [testdb.Select, hdb, hq]
  · intro i m row hm hrow
    rw [List.getElem?_map, hrow] at hm
    simp only [Option.map_some', Option.some.injEq] at hm
    subst hm
    have hrlen : row.length = columns.length := hlen row (List.getElem?_mem hrow)
    constructor
    · intro c hc
      cases hg : GoMap.get (selectRow columns row) c with
      | none => exact absurd hc ((selectRow_get_none columns row c).mp hg)
      | some v => rfl
    · intro j c v hc hv hlast
      exact selectRow_get_last columns row c v j hrlen hc hv hlast

theorem Select_rows_witness :
    ∃ results,
      (sampleDB ⟨["id", "a", "a"], [[Value.int 7, Value.int 1, Value.int 2]]⟩).Select
        "SELECT id, 1 AS a, 2 AS a FROM t" [] = some (results, none) ∧
      results.length = 1 ∧
      ∀ (i : Nat) (m : GoMap) (row : List Value),
        results[i]? = some m → [[Value.int 7, Value.int 1, Value.int 2]][i]? = some row →
        (∀ c ∈ ["id", "a", "a"], (GoMap.get m c).isSome = true) ∧
        ∀ (j : Nat) (c : String) (v : Value),
          ["id", "a", "a"][j]? = some c → row[j]? = some v →
          (∀ j', j < j' → ["id", "a", "a"][j']? ≠ some c) → GoMap.get m c = some v :=
  Select_rows _ "SELECT id, 1 AS a, 2 AS a FROM t" []
    { dsn := ":memory:?cache=shared", closed := false,
      engine := constEngine ⟨["id", "a", "a"], [[Value.int 7, Value.int 1, Value.int 2]]⟩ }
    ["id", "a", "a"] [[Value.int 7, Value.int 1, Value.int 2]] rfl rfl (by decide)

/-! ## Tables and Indexes -/

theorem selectListLoop_name_rows (names : List String) (acc : List Value) :
    selectListLoop "name" acc
        ((names.map (fun n => [Value.text n])).map (selectRow ["name"])) =
      (acc ++ names.map Value.text, none) := by
  induction names generalizing acc with
  | nil => simp [selectListLoop]
  | cons n rest ih =>
    have hrow : GoMap.get (selectRow ["name"] [Value.text n]) "name" = some (Value.text n) := by
      simp [selectRow, Scan, GoMap.set, GoMap.get]
    simp only [List.map_cons, selectListLoop, hrow, ih]
    simp

theorem ToStrings_text (sprint : Value → String) (names : List String) :
    ToStrings sprint (names.map Value.text) = names := by
  induction names with
  | nil => rfl
  | cons n rest ih =>
    simp only [ToStrings] at ih
    simp [ToStrings, ih]

theorem Tables_eq_selectSchemaNames (sprint : Value → String) (dsn : String)
    (schema : List SchemaEntry) (mainFile : String) :
    (sqliteDB dsn schema mainFile).Tables sprint = some (selectSchemaNames schema "table") ∧
      (sqliteDB dsn schema mainFile).Indexes sprint = some (selectSchemaNames schema "index") := by
  constructor <;>
  · simp only [testdb.Tables, testdb.Indexes, testdb.SelectList, selectListOf, testdb.Select,
      sqliteDB, DB.Query, sqliteEngine, if_true, Bool.false_eq_true, if_false, Option.map_some']
    rw [selectListLoop_name_rows]
    simp [ToStrings_text]

/-- C7, the code at the failing input: with the user tables `check` and
`sqlitex` in the catalog, Tables returns only `check`, although `sqlitex` has
type table and does not start with `sqlite_`; likewise Indexes drops the
user index `sqlite3idx`. This holds however `slices.ToStrings` prints values
that are not strings. -/
theorem Tables_drops_user_object (sprint : Value → String) :
    (sqliteDB ":memory:?cache=shared"
        [⟨"table", "sqlitex", "sqlitex", 2, some "CREATE TABLE sqlitex (id INTEGER)"⟩,
         ⟨"table", "check", "check", 3, some "CREATE TABLE \"check\" (id INTEGER)"⟩,
         ⟨"index", "sqlite3idx", "check", 4, some "CREATE INDEX sqlite3idx ON \"check\" (id)"⟩]
        "").Tables sprint = some ["check"] ∧
    (sqliteDB ":memory:?cache=shared"
        [⟨"table", "sqlitex", "sqlitex", 2, some "CREATE TABLE sqlitex (id INTEGER)"⟩,
         ⟨"table", "check", "check", 3, some "CREATE TABLE \"check\" (id INTEGER)"⟩,
         ⟨"index", "sqlite3idx", "check", 4, some "CREATE INDEX sqlite3idx ON \"check\" (id)"⟩]
        "").Indexes sprint = some [] ∧
    "sqlite_".data.isPrefixOf "sqlitex".data = false ∧
    "sqlite_".data.isPrefixOf "sqlite3idx".data = false := by
  refine ⟨?_, ?_, by decide, by decide⟩
  · rw [(Tables_eq_selectSchemaNames sprint _ _ _).1]
    decide
  · rw [(Tables_eq_selectSchemaNames sprint _ _ _).2]
    decide

/-! ## Close, Open and the constructors -/

theorem cutChars_of_not_mem (sep : Char) (s : List Char) (h : sep ∉ s) :
    cutChars [sep] s = none := by
  induction s with
  | nil => simp [cutChars]
  | cons c cs ih =>
    have hc : ¬ sep = c := fun e => h (e ▸ List.mem_cons_self _ _)
    have hcs : sep ∉ cs := fun e => h (List.mem_cons_of_mem _ e)
    simp [cutChars, List.isPrefixOf, hc, ih hcs]

theorem SqliteDB_of_handle (file : String) (dbh : DB) :
    ∃ path, testdb.SqliteDB ⟨file, some dbh⟩ = some path := by
  have h : (testdb.SqliteDB ⟨file, some dbh⟩).isSome = true := by
    simp only [testdb.SqliteDB, testdb.Select]
    cases dbh.Query sqliteDBQuery [] <;> simp
  exact Option.isSome_iff_exists.mp h

theorem Close_without_question_mark (w : World) (file : String) (dbh : DB) (path : String)
    (hpath : testdb.SqliteDB ⟨file, some dbh⟩ = some path) (hq : ¬ '?' ∈ path.data) :
    testdb.Close w ⟨file, none⟩ = some (w, ⟨file, none⟩) ∧
    ∃ w', testdb.Close w ⟨file, some dbh⟩ = some (w', ⟨file, some dbh.Close⟩) ∧
      w'.files =
        if path ≠ "" ∧ path ≠ ":memory:" then w.files.filter (fun f => f != path)
        else w.files := by
  refine ⟨rfl, ?_⟩
  have hcut : (stringsCut path "?").1 = path := by
    have hnone : cutChars "?".data path.data = none := cutChars_of_not_mem _ _ hq
    simp [stringsCut, hnone]
  by_cases hrm : path ≠ "" ∧ path ≠ ":memory:"
  · refine ⟨osRemove { w with log := w.log ++ [Effect.dbClose dbh.dsn] } path, ?_, ?_⟩
    · simp only [testdb.Close, hpath, Option.map_some', hcut]
      rw [if_pos hrm]
    · rw [if_pos hrm]
      rfl
  · refine ⟨{ w with log := w.log ++ [Effect.dbClose dbh.dsn] }, ?_, ?_⟩
    · simp only [testdb.Close, hpath, Option.map_some', hcut]
      rw [if_neg hrm]
    · rw [if_neg hrm]

/-- C8, the code at the failing input: the files `/tmp/a` and `/tmp/a?b.db`
are on storage and NewTestDBWith on `file:/tmp/a%3Fb.db` has opened the
database whose main file SqliteDB reports as `/tmp/a?b.db`; Close then runs
`os.Remove` on `/tmp/a`, so the bystander `/tmp/a` is gone and the database
file `/tmp/a?b.db` is still on storage. -/
theorem Close_removes_bystander :
    (NewTestDBWith (sampleWorld ["/tmp/a", "/tmp/a?b.db"] "/tmp/a?b.db")
        "file:/tmp/a%3Fb.db").2.1.bind (fun t => t.SqliteDB) = some "/tmp/a?b.db" ∧
    (NewTestDBWith (sampleWorld ["/tmp/a", "/tmp/a?b.db"] "/tmp/a?b.db")
        "file:/tmp/a%3Fb.db").2.1.bind (fun t =>
          (testdb.Close
            (NewTestDBWith (sampleWorld ["/tmp/a", "/tmp/a?b.db"] "/tmp/a?b.db")
              "file:/tmp/a%3Fb.db").1 t).map (fun r => (r.1.files, r.1.log))) =
      some (["/tmp/a?b.db"],
        [Effect.sqlOpen "sqlite3" "file:/tmp/a%3Fb.db?cache=shared",
         Effect.dbClose "file:/tmp/a%3Fb.db?cache=shared",
         Effect.osRemove "/tmp/a"]) := by
  decide

/-- C9, the code at the failing input: Open on a test database that holds an
open connection to the file `/tmp/test.db` performs the single effect
`sql.Open`; the file stays on storage and the earlier handle is never closed,
whereas Close followed by Open closes the handle and removes the file first. -/
theorem Open_skips_Close :
    (testdb.Open
        ⟨["/tmp/test.db"], fun _ _ => Except.ok (sqliteEngine [] "/tmp/test.db"), []⟩
        (sqliteDB "/tmp/test.db?cache=shared" [] "/tmp/test.db")).1.files = ["/tmp/test.db"] ∧
    (testdb.Open
        ⟨["/tmp/test.db"], fun _ _ => Except.ok (sqliteEngine [] "/tmp/test.db"), []⟩
        (sqliteDB "/tmp/test.db?cache=shared" [] "/tmp/test.db")).1.log =
      [Effect.sqlOpen "sqlite3" "/tmp/test.db?cache=shared"] ∧
    ((testdb.Close
        ⟨["/tmp/test.db"], fun _ _ => Except.ok (sqliteEngine [] "/tmp/test.db"), []⟩
        (sqliteDB "/tmp/test.db?cache=shared" [] "/tmp/test.db")).map
          (fun r => ((testdb.Open r.1 r.2).1.files, (testdb.Open r.1 r.2).1.log))) =
      some ([], [Effect.dbClose "/tmp/test.db?cache=shared", Effect.osRemove "/tmp/test.db",
        Effect.sqlOpen "sqlite3" "/tmp/test.db?cache=shared"]) := by
  decide

/-- C10: NewTestDBWith p calls `sql.Open` once, for the driver `sqlite3` and
the data source name `p1 ++ "?cache=shared"`, where p1 is `:memory:` for the
empty p and p otherwise; when the driver accepts that name the result is a
test database holding the name and an open handle on the engine the driver
gave, with a nil error, and when the driver refuses the result is no database
and the driver's error. NewTestDBWith on the empty string, NewTestDBWith on
`:memory:` and NewTestDB therefore open the same name `:memory:?cache=shared`
and return the same results. -/
theorem NewTestDBWith_dsn (w : World) (p : String) :
    NewTestDBWith w p =
        (match w.driver "sqlite3" ((if p = "" then ":memory:" else p) ++ "?cache=shared") with
        | Except.ok engine =>
          ({ w with log := w.log ++
                [Effect.sqlOpen "sqlite3" ((if p = "" then ":memory:" else p) ++ "?cache=shared")] },
            some ⟨(if p = "" then ":memory:" else p) ++ "?cache=shared",
              some ⟨(if p = "" then ":memory:" else p) ++ "?cache=shared", false, engine⟩⟩,
            none)
        | Except.error err =>
          ({ w with log := w.log ++
                [Effect.sqlOpen "sqlite3" ((if p = "" then ":memory:" else p) ++ "?cache=shared")] },
            none, some err)) ∧
      (NewTestDBWith w p).1.log =
        w.log ++ [Effect.sqlOpen "sqlite3" ((if p = "" then ":memory:" else p) ++ "?cache=shared")] ∧
      (NewTestDBWith w p).1.files = w.files ∧
      (∀ t, (NewTestDBWith w p).2.1 = some t →
        t.file = (if p = "" then ":memory:" else p) ++ "?cache=shared" ∧
        ∃ dbh, t.dbh = some dbh ∧ dbh.closed = false ∧
          dbh.dsn = (if p = "" then ":memory:" else p) ++ "?cache=shared") ∧
      NewTestDBWith w "" = NewTestDBWith w ":memory:" ∧
      NewTestDB w = NewTestDBWith w ":memory:" ∧
      (NewTestDB w).1.log = w.log ++ [Effect.sqlOpen "sqlite3" ":memory:?cache=shared"] := by
  have key : ∀ q : String, (NewTestDBWith w q).1.log =
      w.log ++ [Effect.sqlOpen "sqlite3" ((if q = "" then ":memory:" else q) ++ "?cache=shared")] ∧
      (NewTestDBWith w q).1.files = w.files ∧
      (∀ t, (NewTestDBWith w q).2.1 = some t →
        t.file = (if q = "" then ":memory:" else q) ++ "?cache=shared" ∧
        ∃ dbh, t.dbh = some dbh ∧ dbh.closed = false ∧
          dbh.dsn = (if q = "" then ":memory:" else q) ++ "?cache=shared") := by
    intro q
    unfold NewTestDBWith testdb.Open sqlOpen
    cases hd : w.driver "sqlite3" ((if q = "" then ":memory:" else q) ++ "?cache=shared") with
    | error e => simp [hd]
    | ok engine =>
      simp [hd]
  refine ⟨?_, (key p).1, (key p).2.1, (key p).2.2, ?_, rfl, ?_⟩
  · unfold NewTestDBWith testdb.Open sqlOpen
    cases hd : w.driver "sqlite3" ((if p = "" then ":memory:" else p) ++ "?cache=shared") with
    | error e => simp [hd]
    | ok engine => simp [hd]
  · simp [NewTestDBWith]
  · have := (key ":memory:").1
    simpa [NewTestDB] using this

theorem NewTestDBWith_dsn_witness :
    (NewTestDBWith (sampleWorld ["/tmp/a"] "") "").2.1.map
        (fun t => (t.file, t.dbh.map (fun d => (d.dsn, d.closed)), t.SqliteDB)) =
      some (":memory:?cache=shared", some (":memory:?cache=shared", false), some "") ∧
    (NewTestDBWith (sampleWorld ["/tmp/a"] "") "").2.2 = none ∧
    (NewTestDBWith (sampleWorld ["/tmp/a"] "") "").1.log =
      [Effect.sqlOpen "sqlite3" ":memory:?cache=shared"] ∧
    (NewTestDBWith (sampleWorld ["/tmp/a"] "") "/tmp/test.db").2.1.map
        (fun t => (t.file, t.dbh.map (fun d => (d.dsn, d.closed)))) =
      some ("/tmp/test.db?cache=shared", some ("/tmp/test.db?cache=shared", false)) := by
  rw [(NewTestDBWith_dsn (sampleWorld ["/tmp/a"] "") "").1,
    (NewTestDBWith_dsn (sampleWorld ["/tmp/a"] "") "/tmp/test.db").1]
  decide

end TestDB
